import Mathlib

set_option maxRecDepth 16000

/- Shallow embedding of the Phase 2 SmartPort command decoder
(src/gateware/yellow_hamr/firmware/phase2_command_decoder/main/command_decoder.c).
Bytes are modelled as `Nat` (the C code uses `uint8_t`; every value a capture can
hold is below 256, and none of the decoding operations overflow).  The capture
buffer is a `List Nat`.  Hardware lines sampled over time are modelled as
functions `Nat → Bool` from a poll/iteration index to the sampled level. -/

/-- The fixed 6-byte SmartPort sync marker, `SYNC_PATTERN` in the source:
FF 3F CF F3 FC FF. -/
def SYNC_PATTERN : List Nat := [0xFF, 0x3F, 0xCF, 0xF3, 0xFC, 0xFF]

/-- `get_command_name` (command_decoder.c lines 66-80): the switch mapping a
command code to its name, with a default case returning "UNKNOWN". -/
def get_command_name (cmd : Nat) : String :=
  match cmd with
  | 0x00 => "STATUS"
  | 0x01 => "READBLOCK"
  | 0x02 => "WRITEBLOCK"
  | 0x03 => "FORMAT"
  | 0x04 => "CONTROL"
  | 0x05 => "INIT"
  | 0x06 => "OPEN"
  | 0x07 => "CLOSE"
  | 0x08 => "READ"
  | 0x09 => "WRITE"
  | _ => "UNKNOWN"

/-- The command-name table exactly as the spec lists it (§6): codes 0x00-0x09
map in order to these names.  This is the spec-side definition used to compare
against the source's `get_command_name`. -/
def specCommandTable : List String :=
  ["STATUS", "READBLOCK", "WRITEBLOCK", "FORMAT", "CONTROL",
   "INIT", "OPEN", "CLOSE", "READ", "WRITE"]

/-- `read_byte_raw` (lines 170-181): samples the wrdata line 8 times (once per
4µs bit cell, at the half-bit-cell point) and shifts each sample in MSB first:
`byte = (byte << 1) | sample`.  The line is modelled as the function from the
sample index (0..7) to the sampled level; the real-time delays carry no data. -/
def read_byte_raw (wrdata : Nat → Bool) : Nat :=
  (List.range 8).foldl (fun byte i => (byte <<< 1) ||| (if wrdata i then 1 else 0)) 0

/-- Inner comparison of the `find_sync_pattern` scan (lines 288-293): position
`i` of the buffer matches when all 6 bytes `buf[i+j]` equal `SYNC_PATTERN[j]`.
Out-of-range reads yield the default 0, which never equals a sync byte; the
scan below only probes in-range positions anyway, mirroring the C loop bound. -/
def matchAt (buf : List Nat) (i : Nat) : Bool :=
  (List.range SYNC_PATTERN.length).all fun j =>
    buf.getD (i + j) 0 == SYNC_PATTERN.getD j 0

/-- The `for` loop of `find_sync_pattern` (lines 286-297): tries positions
`i, i+1, ...` for `fuel` iterations (the C loop runs `i = 0 .. len-6`, so the
entry point below passes `fuel = len - 6 + 1`), returning the first match. -/
def find_sync_loop (buf : List Nat) : Nat → Nat → Option Nat
  | _, 0 => none
  | i, n + 1 => if matchAt buf i then some i else find_sync_loop buf (i + 1) n

/-- `find_sync_pattern` (lines 280-300): returns none when the buffer is
shorter than the 6-byte marker, otherwise scans positions 0 .. len-6 left to
right and returns the first (leftmost) exact match, none when no match. -/
def find_sync_pattern (buf : List Nat) : Option Nat :=
  if buf.length < SYNC_PATTERN.length then none
  else find_sync_loop buf 0 (buf.length - SYNC_PATTERN.length + 1)

/-- Outcome of `analyze_capture`'s packet path (lines 319-369), one constructor
per distinct terminal print path of the C function:
* `packet`: sync found, 0xC3 at pkt_start, and `pkt_start + 8 < capture_len`;
  dest/src/type extracted, and the command byte with its name when
  type ∈ {0x80, 0x85} (`cmd = none` otherwise, matching the C code printing no
  CMD line for other types);
* `packetStartOnly`: sync found and 0xC3 present but `pkt_start + 8 ≥ len`,
  so no header field is read;
* `noPacketStart`: sync found but no (in-range) 0xC3 right after it;
* `allZeros` / `allOnes` / `noSync`: the no-sync diagnostics of lines 353-368. -/
inductive CaptureAnalysis where
  | packet (sync_offset dest src ptype : Nat) (cmd : Option (Nat × String))
  | packetStartOnly (sync_offset : Nat)
  | noPacketStart (sync_offset : Nat)
  | allZeros
  | allOnes
  | noSync
deriving DecidableEq

/-- The sync-found branch of `analyze_capture` (lines 321-352):
`pkt_start = sync_offset + 6`; requires `pkt_start < capture_len` and
`capture_buffer[pkt_start] == 0xC3`; header fields are read only under the
single guard `pkt_start + 8 < capture_len`. -/
def analyze_with_sync (buf : List Nat) (sync_offset : Nat) : CaptureAnalysis :=
  let pkt_start := sync_offset + SYNC_PATTERN.length
  if pkt_start < buf.length ∧ buf.getD pkt_start 0 = 0xC3 then
    if pkt_start + 8 < buf.length then
      CaptureAnalysis.packet sync_offset
        (buf.getD (pkt_start + 1) 0)
        (buf.getD (pkt_start + 2) 0)
        (buf.getD (pkt_start + 3) 0)
        (if buf.getD (pkt_start + 3) 0 = 0x80 ∨ buf.getD (pkt_start + 3) 0 = 0x85 then
          some (buf.getD (pkt_start + 8) 0, get_command_name (buf.getD (pkt_start + 8) 0))
        else none)
    else CaptureAnalysis.packetStartOnly sync_offset
  else CaptureAnalysis.noPacketStart sync_offset

/-- The no-sync branch of `analyze_capture` (lines 353-368): `all_zero` and
`all_one` each quantify over every captured byte; `all_zero` is tested first. -/
def classify_no_sync (buf : List Nat) : CaptureAnalysis :=
  let all_zero := buf.all (· == 0x00)
  let all_one := buf.all (· == 0xFF)
  if all_zero then CaptureAnalysis.allZeros
  else if all_one then CaptureAnalysis.allOnes
  else CaptureAnalysis.noSync

/-- `analyze_capture` (lines 305-370), hex-dump printing aside: dispatch on the
result of `find_sync_pattern`. -/
def analyze_capture (buf : List Nat) : CaptureAnalysis :=
  match find_sync_pattern buf with
  | some sync_offset => analyze_with_sync buf sync_offset
  | none => classify_no_sync buf

/-- C3: the command-code lookup is a fixed, pure, total mapping: every code
agrees with the spec's 10-name table (codes 0x00-0x09 in order, everything
else "UNKNOWN").  However the table has 10 named entries, not 9: the claim's
"9 named plus the UNKNOWN catch-all" count is wrong; code 0x09 is the tenth
named entry, "WRITE". -/
theorem get_command_name_named_count_ne_nine :
    get_command_name 0x09 = "WRITE" ∧
    ((List.range 256).filter (fun c => get_command_name c != "UNKNOWN")).length = 10 ∧
    ¬ ((List.range 256).filter (fun c => get_command_name c != "UNKNOWN")).length = 9 := by
  refine ⟨rfl, by decide, by decide⟩

/-- C3 (amended): the command-code lookup is a fixed, pure, total mapping over
all byte values: codes 0x00-0x09 map, in order, to STATUS, READBLOCK,
WRITEBLOCK, FORMAT, CONTROL, INIT, OPEN, CLOSE, READ, WRITE, and every other
value maps to "UNKNOWN"; the table has 11 entries total (10 named plus the
UNKNOWN catch-all), so exactly 10 of the 256 byte codes have a name. -/
theorem get_command_name_table_spec :
    (∀ c : Nat, get_command_name c = specCommandTable.getD c "UNKNOWN") ∧
    specCommandTable.length = 10 ∧
    ((List.range 256).filter (fun c => get_command_name c != "UNKNOWN")).length = 10 := by
  refine ⟨fun c => ?_, rfl, by decide⟩
  match c with
  | 0 => rfl
  | 1 => rfl
  | 2 => rfl
  | 3 => rfl
  | 4 => rfl
  | 5 => rfl
  | 6 => rfl
  | 7 => rfl
  | 8 => rfl
  | 9 => rfl
  | n + 10 => rfl

/-- C7: `read_byte_raw` samples the line exactly 8 times (its result depends
only on the first 8 samples), assembling MSB first: a line held at 1 gives
0xFF, held at 0 gives 0x00, and the pattern 10110010 gives 0xB2. -/
theorem read_byte_raw_spec :
    read_byte_raw (fun _ => true) = 0xFF ∧
    read_byte_raw (fun _ => false) = 0x00 ∧
    read_byte_raw
      (fun i => [true, false, true, true, false, false, true, false].getD i false) = 0xB2 ∧
    ∀ f g : Nat → Bool, (∀ i < 8, f i = g i) → read_byte_raw f = read_byte_raw g := by
  refine ⟨by decide, by decide, by decide, fun f g h => ?_⟩
  unfold read_byte_raw
  refine List.foldl_ext _ _ 0 fun b i hi => ?_
  rw [h i (List.mem_range.mp hi)]

/-- C7 witness: the extensionality conjunct applied at two concrete line
functions that agree on the first 8 samples. -/
theorem read_byte_raw_spec_witness :
    read_byte_raw (fun _ => true) = read_byte_raw (fun i => decide (i < 8)) :=
  read_byte_raw_spec.2.2.2 (fun _ => true) (fun i => decide (i < 8)) (by decide)

lemma sync_pattern_length : SYNC_PATTERN.length = 6 := rfl

/-- A position that passes the byte-by-byte sync comparison is entirely in
range: every sync byte is nonzero, so an out-of-range read (default 0) would
fail the comparison at index 5. -/
lemma matchAt_length {buf : List Nat} {i : Nat} (h : matchAt buf i = true) :
    i + 6 ≤ buf.length := by
  by_contra hlen
  have hall := List.all_eq_true.mp h
  have h5 : buf.getD (i + 5) 0 = 0xFF := by
    simpa [SYNC_PATTERN] using hall 5 (by decide)
  rw [List.getD_eq_default _ _ (by omega)] at h5
  exact absurd h5 (by decide)

lemma find_sync_loop_eq_none {buf : List Nat} (hnone : ∀ k, matchAt buf k = false) :
    ∀ n i, find_sync_loop buf i n = none := by
  intro n
  induction n with
  | zero => exact fun i => rfl
  | succ n ih => exact fun i => by simp [find_sync_loop, hnone i, ih (i + 1)]

lemma find_sync_loop_eq_some {buf : List Nat} {k : Nat}
    (hk : matchAt buf k = true) (hmin : ∀ j < k, matchAt buf j = false) :
    ∀ n i, i ≤ k → k < i + n → find_sync_loop buf i n = some k := by
  intro n
  induction n with
  | zero => intro i h1 h2; omega
  | succ n ih =>
    intro i h1 h2
    rcases Nat.eq_or_lt_of_le h1 with he | hlt
    · subst he; simp [find_sync_loop, hk]
    · have hne : matchAt buf i = false := hmin i hlt
      simp only [find_sync_loop, hne, Bool.false_eq_true, if_false]
      exact ih (i + 1) hlt (by omega)

lemma find_sync_pattern_short {buf : List Nat} (h : buf.length < 6) :
    find_sync_pattern buf = none := by
  unfold find_sync_pattern
  rw [sync_pattern_length, if_pos h]

lemma find_sync_pattern_none {buf : List Nat} (h : ∀ k, matchAt buf k = false) :
    find_sync_pattern buf = none := by
  unfold find_sync_pattern
  split
  · rfl
  · exact find_sync_loop_eq_none h _ _

lemma find_sync_pattern_some {buf : List Nat} {k : Nat}
    (hk : matchAt buf k = true) (hmin : ∀ j < k, matchAt buf j = false) :
    find_sync_pattern buf = some k := by
  have hlen : k + 6 ≤ buf.length := matchAt_length hk
  unfold find_sync_pattern
  rw [sync_pattern_length, if_neg (by omega)]
  exact find_sync_loop_eq_some hk hmin _ 0 (Nat.zero_le k) (by omega)

/-- C2: `find_sync_pattern` is an exact-match substring search for the fixed
6-byte marker: it returns none when the buffer is shorter than 6 bytes or no
position matches, and returns the leftmost matching offset otherwise (`matchAt`
is the byte-by-byte comparison of the source's inner loop). -/
theorem find_sync_pattern_leftmost_exact (buf : List Nat) :
    (buf.length < 6 → find_sync_pattern buf = none) ∧
    ((∀ k, matchAt buf k = false) → find_sync_pattern buf = none) ∧
    (∀ k, matchAt buf k = true → (∀ j < k, matchAt buf j = false) →
      find_sync_pattern buf = some k) :=
  ⟨fun h => find_sync_pattern_short h,
   fun h => find_sync_pattern_none h,
   fun _ hk hmin => find_sync_pattern_some hk hmin⟩

/-- C2 witness: a buffer with a non-matching leading byte and the exact marker
at offset 1 yields offset 1; a 3-byte buffer (a partial marker) yields none. -/
theorem find_sync_pattern_leftmost_exact_witness :
    find_sync_pattern [0x00, 0xFF, 0x3F, 0xCF, 0xF3, 0xFC, 0xFF] = some 1 ∧
    find_sync_pattern [0xFF, 0x3F, 0xCF] = none :=
  ⟨(find_sync_pattern_leftmost_exact _).2.2 1 (by decide) (by decide),
   (find_sync_pattern_leftmost_exact _).1 (by decide)⟩

/-- A buffer that begins with the sync marker has its leftmost match at 0. -/
lemma find_sync_pattern_append (tail : List Nat) :
    find_sync_pattern (SYNC_PATTERN ++ tail) = some 0 :=
  find_sync_pattern_some rfl (fun j hj => absurd hj (Nat.not_lt_zero j))

lemma analyze_capture_of_sync {buf : List Nat} {k : Nat}
    (hs : find_sync_pattern buf = some k) :
    analyze_capture buf = analyze_with_sync buf k := by
  unfold analyze_capture
  rw [hs]

lemma analyze_capture_of_no_sync {buf : List Nat}
    (hs : find_sync_pattern buf = none) :
    analyze_capture buf = classify_no_sync buf := by
  unfold analyze_capture
  rw [hs]

/-- C1: a capture consisting of the sync marker, the packet-start byte 0xC3,
and at least 8 further bytes decodes to a packet with dest at +1, src at +2,
type 0x80 at +3, and the command byte at +8 paired with its table name;
the table names codes 0x00-0x09 and yields "UNKNOWN" for every other code. -/
theorem analyze_capture_decodes_command_packet
    (d s a st o g c : Nat) (rest : List Nat) :
    analyze_capture
        (SYNC_PATTERN ++ 0xC3 :: d :: s :: 0x80 :: a :: st :: o :: g :: c :: rest)
      = CaptureAnalysis.packet 0 d s 0x80 (some (c, get_command_name c)) ∧
    (get_command_name 0x00 = "STATUS" ∧ get_command_name 0x01 = "READBLOCK" ∧
     get_command_name 0x02 = "WRITEBLOCK" ∧ get_command_name 0x03 = "FORMAT" ∧
     get_command_name 0x04 = "CONTROL" ∧ get_command_name 0x05 = "INIT" ∧
     get_command_name 0x06 = "OPEN" ∧ get_command_name 0x07 = "CLOSE" ∧
     get_command_name 0x08 = "READ" ∧ get_command_name 0x09 = "WRITE") ∧
    (∀ c', 0x09 < c' → get_command_name c' = "UNKNOWN") := by
  refine ⟨?_, ⟨rfl, rfl, rfl, rfl, rfl, rfl, rfl, rfl, rfl, rfl⟩, fun c' hc' => ?_⟩
  · have hlen :
        (SYNC_PATTERN ++ 0xC3 :: d :: s :: 0x80 :: a :: st :: o :: g :: c :: rest).length
          = 15 + rest.length := by
      simp [SYNC_PATTERN]
      omega
    rw [analyze_capture_of_sync (find_sync_pattern_append _)]
    simp only [analyze_with_sync, sync_pattern_length]
    rw [if_pos ⟨by simp only [hlen]; omega, rfl⟩, if_pos (by simp only [hlen]; omega)]
    rfl
  · match c', hc' with
    | n + 10, _ => rfl

/-- C1 witness: a concrete command packet with an out-of-table command byte
0x20 decodes to the name "UNKNOWN". -/
theorem analyze_capture_decodes_command_packet_witness :
    analyze_capture
        (SYNC_PATTERN ++ 0xC3 :: 0x01 :: 0x02 :: 0x80 :: 0 :: 0 :: 0 :: 0 :: 0x20 :: [])
      = CaptureAnalysis.packet 0 0x01 0x02 0x80 (some (0x20, "UNKNOWN")) ∧
    get_command_name 0x20 = "UNKNOWN" := by
  have h := analyze_capture_decodes_command_packet 0x01 0x02 0 0 0 0 0x20 []
  have h20 := h.2.2 0x20 (by decide)
  exact ⟨by rw [h.1, h20], h20⟩

/-- C4: the packet decoder degrades to an insufficient-data outcome instead of
reading out of bounds: when the capture ends at or before the command-byte
offset (pkt_start + 8) no header field is extracted, and when it ends at or
before pkt_start the packet-start-marker comparison itself is skipped. -/
theorem analyze_capture_insufficient_data (buf : List Nat) (k : Nat)
    (hs : find_sync_pattern buf = some k) :
    (buf.length ≤ k + 6 + 8 →
       analyze_capture buf = CaptureAnalysis.noPacketStart k ∨
       analyze_capture buf = CaptureAnalysis.packetStartOnly k) ∧
    (buf.length ≤ k + 6 → analyze_capture buf = CaptureAnalysis.noPacketStart k) := by
  rw [analyze_capture_of_sync hs]
  constructor
  · intro hlen
    simp only [analyze_with_sync, sync_pattern_length]
    split
    · rw [if_neg (by omega)]
      right; rfl
    · left; rfl
  · intro hlen
    simp only [analyze_with_sync, sync_pattern_length]
    rw [if_neg (by rintro ⟨h1, -⟩; omega)]

/-- C4 witness: the sync marker followed by 0xC3 alone (7 captured bytes). -/
theorem analyze_capture_insufficient_data_witness :
    analyze_capture [0xFF, 0x3F, 0xCF, 0xF3, 0xFC, 0xFF, 0xC3]
        = CaptureAnalysis.noPacketStart 0 ∨
    analyze_capture [0xFF, 0x3F, 0xCF, 0xF3, 0xFC, 0xFF, 0xC3]
        = CaptureAnalysis.packetStartOnly 0 :=
  (analyze_capture_insufficient_data _ 0 (by decide)).1 (by decide)

/-- C5 counterexample: a capture holding the sync marker, 0xC3, and the dest,
src and type header bytes (offsets +1..+3 all within the captured length)
reports no header field at all, because the code guards all field reads behind
the single check `pkt_start + 8 < capture_len`; the claim that every in-range
field is extracted ("degrades to the deepest available field") is false. -/
theorem analyze_capture_no_partial_field_extraction :
    analyze_capture [0xFF, 0x3F, 0xCF, 0xF3, 0xFC, 0xFF, 0xC3, 0x11, 0x22, 0x80]
      = CaptureAnalysis.packetStartOnly 0 ∧
    6 + 3 < ([0xFF, 0x3F, 0xCF, 0xF3, 0xFC, 0xFF, 0xC3, 0x11, 0x22, 0x80] : List Nat).length := by
  exact ⟨by decide, by decide⟩

/-- C5 (amended): header extraction is all-or-nothing at packet granularity:
with sync at k and 0xC3 at pkt_start = k+6, if pkt_start + 8 < captured length
then dest, src, type (and, for type 0x80/0x85, the command byte and name) are
all extracted; otherwise none is, and the result only reports the packet
start.  Degradation is sync-only → packet-start-only → full header, not
per-field. -/
theorem analyze_capture_all_or_nothing_header (buf : List Nat) (k : Nat)
    (hs : find_sync_pattern buf = some k)
    (hlt : k + 6 < buf.length) (hc3 : buf.getD (k + 6) 0 = 0xC3) :
    (k + 6 + 8 < buf.length →
      analyze_capture buf = CaptureAnalysis.packet k
        (buf.getD (k + 6 + 1) 0) (buf.getD (k + 6 + 2) 0) (buf.getD (k + 6 + 3) 0)
        (if buf.getD (k + 6 + 3) 0 = 0x80 ∨ buf.getD (k + 6 + 3) 0 = 0x85 then
          some (buf.getD (k + 6 + 8) 0, get_command_name (buf.getD (k + 6 + 8) 0))
         else none)) ∧
    (¬ k + 6 + 8 < buf.length →
      analyze_capture buf = CaptureAnalysis.packetStartOnly k) := by
  rw [analyze_capture_of_sync hs]
  simp only [analyze_with_sync, sync_pattern_length]
  rw [if_pos ⟨hlt, hc3⟩]
  constructor
  · intro h8; rw [if_pos h8]
  · intro h8; rw [if_neg h8]

/-- C5 (amended) witness: a full 15-byte command packet decodes all fields. -/
theorem analyze_capture_all_or_nothing_header_witness :
    analyze_capture
        [0xFF, 0x3F, 0xCF, 0xF3, 0xFC, 0xFF, 0xC3, 0x01, 0x02, 0x80, 0, 0, 0, 0, 0x01]
      = CaptureAnalysis.packet 0 0x01 0x02 0x80 (some (0x01, "READBLOCK")) := by
  have h := (analyze_capture_all_or_nothing_header
      [0xFF, 0x3F, 0xCF, 0xF3, 0xFC, 0xFF, 0xC3, 0x01, 0x02, 0x80, 0, 0, 0, 0, 0x01] 0
      (by decide) (by decide) (by decide)).1 (by decide)
  exact h

/-- C10: when no sync marker is found, the classification tests uniform-zero
before uniform-one and each test quantifies over every captured byte: the
empty capture is classified uniform-zero (vacuously), and a capture is
classified uniform-one exactly when it is not uniformly zero and every byte
is 0xFF. -/
theorem analyze_capture_no_sync_classification :
    analyze_capture [] = CaptureAnalysis.allZeros ∧
    ∀ buf : List Nat, find_sync_pattern buf = none →
      ((analyze_capture buf = CaptureAnalysis.allZeros ↔ ∀ b ∈ buf, b = 0x00) ∧
       (analyze_capture buf = CaptureAnalysis.allOnes ↔
         (¬ ∀ b ∈ buf, b = 0x00) ∧ ∀ b ∈ buf, b = 0xFF)) := by
  refine ⟨by decide, fun buf hs => ?_⟩
  rw [analyze_capture_of_no_sync hs]
  have e0 : (buf.all (· == 0x00) = true) ↔ ∀ b ∈ buf, b = 0x00 := by
    simp [List.all_eq_true]
  have e1 : (buf.all (· == 0xFF) = true) ↔ ∀ b ∈ buf, b = 0xFF := by
    simp [List.all_eq_true]
  by_cases hz : buf.all (· == 0x00) = true
  · have hres : classify_no_sync buf = CaptureAnalysis.allZeros := by
      simp [classify_no_sync, hz]
    rw [hres]
    exact ⟨⟨fun _ => e0.mp hz, fun _ => rfl⟩,
      ⟨fun h => absurd h (by decide), fun h => absurd (e0.mp hz) h.1⟩⟩
  · have hp0 : ¬ ∀ b ∈ buf, b = 0x00 := fun h => hz (e0.mpr h)
    by_cases ho : buf.all (· == 0xFF) = true
    · have hres : classify_no_sync buf = CaptureAnalysis.allOnes := by
        simp [classify_no_sync, hz, ho]
      rw [hres]
      exact ⟨⟨fun h => absurd h (by decide), fun hp => absurd hp hp0⟩,
        ⟨fun _ => ⟨hp0, e1.mp ho⟩, fun _ => rfl⟩⟩
    · have hp1 : ¬ ∀ b ∈ buf, b = 0xFF := fun h => ho (e1.mpr h)
      have hres : classify_no_sync buf = CaptureAnalysis.noSync := by
        simp [classify_no_sync, hz, ho]
      rw [hres]
      exact ⟨⟨fun h => absurd h (by decide), fun hp => absurd hp hp0⟩,
        ⟨fun h => absurd h (by decide), fun h => absurd h.2 hp1⟩⟩

/-- C10 witness: the mixed buffer 00 FF (no sync) is not classified
uniform-zero, by the classification equivalence at that concrete input. -/
theorem analyze_capture_no_sync_classification_witness :
    analyze_capture [0x00, 0xFF] ≠ CaptureAnalysis.allZeros := fun h => by
  have h2 := ((analyze_capture_no_sync_classification).2 [0x00, 0xFF] (by decide)).1.mp h
  exact absurd (h2 0xFF (by decide)) (by decide)

/-- `CAPTURE_SIZE` (line 58): fixed capacity of the capture buffer. -/
def CAPTURE_SIZE : Nat := 128

/-- The hardware lines as sampled by one capture session.  `wreq` gives the
level of the active-low `_wrreq` line at the i-th poll of
`wait_for_write_mode`; the remaining fields give, for the i-th iteration of
the capture loop, whether the 10 ms capture timeout has expired at its start
(`esp_timer` comparison, line 263), the byte assembled by `read_byte_raw`
(line 267), and the levels of the active-low `_enbl1` / `_enbl2` lines at the
post-append enable check (line 270). -/
structure CaptureEnv where
  wreq : Nat → Bool
  timeoutExpired : Nat → Bool
  byte : Nat → Nat
  enbl1 : Nat → Bool
  enbl2 : Nat → Bool

/-- `drive_enabled` (lines 158-161): the EnableCondition, the logical OR of
the two active-low enable lines. -/
def drive_enabled (env : CaptureEnv) (i : Nat) : Bool :=
  !(env.enbl1 i) || !(env.enbl2 i)

/-- The polling loop of `wait_for_write_mode` (lines 215-224): returns true as
soon as a poll sees `_wrreq` low; `fuel` is the number of polls that fit in
the timeout window (the real loop is bounded by 50 ms of wall-clock time). -/
def wait_loop (wreq : Nat → Bool) : Nat → Nat → Bool
  | _, 0 => false
  | i, fuel + 1 => if wreq i = false then true else wait_loop wreq (i + 1) fuel

/-- `wait_for_write_mode` (lines 215-224) with the 50 ms window abstracted to
`maxPolls` polls of the `_wrreq` line. -/
def wait_for_write_mode (wreq : Nat → Bool) (maxPolls : Nat) : Bool :=
  wait_loop wreq 0 maxPolls

/-- Session outcome, the spec's `DONE{FULL|TIMEOUT|DESELECTED}` labels (§4.3)
for the three exit paths of `capture_packet` (the C function returns void and
reports its outcome through prints; the labels name its exit paths: while
condition false = FULL, the two breaks = TIMEOUT / DESELECTED, and the early
return when `wait_for_write_mode` fails = TIMEOUT). -/
inductive DoneReason where
  | full
  | timeout
  | deselected
deriving DecidableEq

/-- The capture loop of `capture_packet` (lines 261-273):
`while (capture_len < CAPTURE_SIZE) { if timeout break; append read_byte_raw();
if (!drive_enabled()) break; }`.  One iteration appends exactly one byte, so
the loop runs at most CAPTURE_SIZE + 1 guard checks; `fuel` only bounds the
recursion and the entry point passes `CAPTURE_SIZE + 1`, which the length
guard makes unreachable at 0 (each call consumes one fuel and grows the
buffer by one, so fuel 0 would need a buffer of length 129, stopped earlier
by the guard). -/
def capture_loop (env : CaptureEnv) : Nat → List Nat → Nat → DoneReason × List Nat
  | _, buffer, 0 => (DoneReason.full, buffer)
  | i, buffer, fuel + 1 =>
    if buffer.length < CAPTURE_SIZE then
      if env.timeoutExpired i then (DoneReason.timeout, buffer)
      else
        let buffer' := buffer ++ [env.byte i]
        if drive_enabled env i then capture_loop env (i + 1) buffer' fuel
        else (DoneReason.deselected, buffer')
    else (DoneReason.full, buffer)

/-- `capture_packet` (lines 229-274): resets the buffer to empty, waits up to
50 ms for `_wrreq` to go low and returns a TIMEOUT outcome with the empty
buffer when it never does, else runs the capture loop.  The 2 ms
`check_wrdata_activity` call (lines 247-257) only prints diagnostics and
changes no capture state, so it has no counterpart here. -/
def capture_packet (env : CaptureEnv) (maxPolls : Nat) : DoneReason × List Nat :=
  if wait_for_write_mode env.wreq maxPolls then
    capture_loop env 0 [] (CAPTURE_SIZE + 1)
  else (DoneReason.timeout, [])

/-- A line environment that never asserts `_wrreq` (always high), never
expires the capture timeout, reads zero bytes, and keeps both active-low
enable lines high (drive not enabled). -/
def envConst : CaptureEnv :=
  { wreq := fun _ => true
    timeoutExpired := fun _ => false
    byte := fun _ => 0
    enbl1 := fun _ => true
    enbl2 := fun _ => true }

/-- A line environment whose drive stays enabled through the enable checks of
iterations 0..126 and is deselected exactly at the check of iteration 127 --
the check right after the append that fills the 128-byte buffer; the capture
timeout never expires. -/
def envDeselectLate : CaptureEnv :=
  { wreq := fun _ => false
    timeoutExpired := fun _ => false
    byte := fun _ => 0
    enbl1 := fun i => decide (127 ≤ i)
    enbl2 := fun i => decide (127 ≤ i) }

lemma wait_loop_eq_false {wreq : Nat → Bool} :
    ∀ fuel i, (∀ t < fuel, wreq (i + t) = true) → wait_loop wreq i fuel = false := by
  intro fuel
  induction fuel with
  | zero => exact fun i _ => rfl
  | succ n ih =>
    intro i h
    have h0 : wreq i = true := by simpa using h 0 (Nat.succ_pos n)
    show (if wreq i = false then true else wait_loop wreq (i + 1) n) = false
    rw [h0, if_neg (by decide)]
    exact ih (i + 1) fun t ht => by
      rw [show i + 1 + t = i + (t + 1) by omega]
      exact h (t + 1) (by omega)

/-- C9: when `_wrreq` is never seen low within the bounded wait, the session
ends with a TIMEOUT outcome returned as a value and an empty buffer: no byte
is ever captured. -/
theorem capture_packet_request_timeout (env : CaptureEnv) (maxPolls : Nat)
    (h : ∀ i < maxPolls, env.wreq i = true) :
    capture_packet env maxPolls = (DoneReason.timeout, []) := by
  have hw : wait_for_write_mode env.wreq maxPolls = false := by
    unfold wait_for_write_mode
    exact wait_loop_eq_false maxPolls 0 fun t ht => by simpa using h t ht
  unfold capture_packet
  rw [hw, if_neg (by decide)]

/-- C9 witness: three polls of a line held high time out with nothing
captured. -/
theorem capture_packet_request_timeout_witness :
    capture_packet envConst 3 = (DoneReason.timeout, []) :=
  capture_packet_request_timeout envConst 3 (fun _ _ => rfl)

lemma capture_loop_length_le (env : CaptureEnv) :
    ∀ fuel i buffer, buffer.length ≤ CAPTURE_SIZE →
      ((capture_loop env i buffer fuel).2).length ≤ CAPTURE_SIZE := by
  intro fuel
  induction fuel with
  | zero => exact fun i buffer h => h
  | succ n ih =>
    intro i buffer h
    simp only [capture_loop]
    by_cases hlt : buffer.length < CAPTURE_SIZE
    · rw [if_pos hlt]
      by_cases hto : env.timeoutExpired i = true
      · rw [if_pos hto]; exact h
      · rw [if_neg hto]
        by_cases hen : drive_enabled env i = true
        · rw [if_pos hen]
          exact ih (i + 1) _
            (by simp only [List.length_append, List.length_cons, List.length_nil]; omega)
        · rw [if_neg hen]
          simp only [List.length_append, List.length_cons, List.length_nil]
          omega
    · rw [if_neg hlt]; exact h

/-- C8: the capture buffer never exceeds its fixed capacity of 128: a session
starts from the empty buffer (`capture_len = 0`), each iteration appends only
under the guard `capture_len < CAPTURE_SIZE`, and every state the loop can
pass through (any start index, any buffer within capacity, any remaining
fuel) ends with length at most CAPTURE_SIZE. -/
theorem capture_buffer_length_invariant :
    (∀ env maxPolls, ((capture_packet env maxPolls).2).length ≤ CAPTURE_SIZE) ∧
    (∀ env i buffer fuel, buffer.length ≤ CAPTURE_SIZE →
      ((capture_loop env i buffer fuel).2).length ≤ CAPTURE_SIZE) := by
  constructor
  · intro env maxPolls
    unfold capture_packet
    split
    · exact capture_loop_length_le env (CAPTURE_SIZE + 1) 0 [] (Nat.zero_le _)
    · exact Nat.zero_le _
  · exact fun env i buffer fuel h => capture_loop_length_le env fuel i buffer h

/-- C8 witness: the loop invariant applied from the empty buffer with a small
fuel. -/
theorem capture_buffer_length_invariant_witness :
    ((capture_loop envConst 0 [] 5).2).length ≤ CAPTURE_SIZE :=
  capture_buffer_length_invariant.2 envConst 0 [] 5 (Nat.zero_le _)

/-- Run of the capture loop in which the drive stays enabled through the
first `j` enable checks, is found deselected at check `j`, and the capture
timeout has not expired at any of the first `j + 1` iteration starts: the
loop appends exactly `j + 1` bytes and exits with DESELECTED. -/
lemma capture_loop_deselected_run (env : CaptureEnv) :
    ∀ (j i : Nat) (buffer : List Nat) (fuel : Nat),
      j < fuel →
      buffer.length + j < CAPTURE_SIZE →
      (∀ t < j, drive_enabled env (i + t) = true) →
      drive_enabled env (i + j) = false →
      (∀ t ≤ j, env.timeoutExpired (i + t) = false) →
      (capture_loop env i buffer fuel).1 = DoneReason.deselected ∧
      ((capture_loop env i buffer fuel).2).length = buffer.length + j + 1 := by
  intro j
  induction j with
  | zero =>
    intro i buffer fuel hfuel hlen hen hdis hto
    obtain ⟨f, rfl⟩ : ∃ f, fuel = f + 1 := ⟨fuel - 1, by omega⟩
    have ht0 : env.timeoutExpired i = false := by simpa using hto 0 (Nat.le_refl 0)
    have hd0 : drive_enabled env i = false := by simpa using hdis
    simp only [capture_loop]
    rw [if_pos (by omega), if_neg (by simp [ht0]), if_neg (by simp [hd0])]
    exact ⟨rfl, by simp⟩
  | succ j ih =>
    intro i buffer fuel hfuel hlen hen hdis hto
    obtain ⟨f, rfl⟩ : ∃ f, fuel = f + 1 := ⟨fuel - 1, by omega⟩
    have ht0 : env.timeoutExpired i = false := by simpa using hto 0 (Nat.zero_le _)
    have he0 : drive_enabled env i = true := by simpa using hen 0 (Nat.succ_pos j)
    simp only [capture_loop]
    rw [if_pos (by omega), if_neg (by simp [ht0]), if_pos he0]
    have hrec := ih (i + 1) (buffer ++ [env.byte i]) f (by omega)
      (by simp only [List.length_append, List.length_cons, List.length_nil]; omega)
      (fun t ht => by
        rw [show i + 1 + t = i + (t + 1) by omega]
        exact hen (t + 1) (by omega))
      (by rw [show i + 1 + j = i + (j + 1) by omega]; exact hdis)
      (fun t ht => by
        rw [show i + 1 + t = i + (t + 1) by omega]
        exact hto (t + 1) (by omega))
    refine ⟨hrec.1, ?_⟩
    rw [hrec.2]
    simp only [List.length_append, List.length_cons, List.length_nil]
    omega

/-- C6 counterexample: a session whose EnableCondition goes false during
CAPTURING, exactly at the enable check following the append that fills the
buffer, terminates with reason DESELECTED but with buffer length equal to the
capacity 128, not strictly less. -/
theorem capture_loop_deselected_at_capacity :
    (capture_loop envDeselectLate 0 [] (CAPTURE_SIZE + 1)).1 = DoneReason.deselected ∧
    ¬ ((capture_loop envDeselectLate 0 [] (CAPTURE_SIZE + 1)).2).length < CAPTURE_SIZE := by
  decide

/-- C6 (amended): a session in which the EnableCondition is first observed
false at enable check `j` during CAPTURING (with the capture timeout not yet
expired) terminates with reason DESELECTED and buffer length `j + 1`, which
is at most the capacity 128 -- and strictly less than 128 except when the
deselection is first observed at the check right after the append that filled
the buffer (`j = 127`). -/
theorem capture_loop_deselected_spec (env : CaptureEnv) (j : Nat)
    (hj : j < CAPTURE_SIZE)
    (hen : ∀ t < j, drive_enabled env t = true)
    (hdis : drive_enabled env j = false)
    (hto : ∀ t ≤ j, env.timeoutExpired t = false) :
    (capture_loop env 0 [] (CAPTURE_SIZE + 1)).1 = DoneReason.deselected ∧
    ((capture_loop env 0 [] (CAPTURE_SIZE + 1)).2).length = j + 1 ∧
    ((capture_loop env 0 [] (CAPTURE_SIZE + 1)).2).length ≤ CAPTURE_SIZE := by
  have h := capture_loop_deselected_run env j 0 [] (CAPTURE_SIZE + 1) (by omega)
    (by simpa using hj)
    (fun t ht => by simpa using hen t ht)
    (by simpa using hdis)
    (fun t ht => by simpa using hto t ht)
  refine ⟨h.1, ?_, ?_⟩
  · rw [h.2]; simp
  · rw [h.2]; simp only [List.length_nil, Nat.zero_add]; omega

/-- C6 (amended) witness: a drive deselected already at the first enable
check captures exactly one byte and ends DESELECTED. -/
theorem capture_loop_deselected_spec_witness :
    (capture_loop envConst 0 [] (CAPTURE_SIZE + 1)).1 = DoneReason.deselected ∧
    ((capture_loop envConst 0 [] (CAPTURE_SIZE + 1)).2).length = 1 ∧
    ((capture_loop envConst 0 [] (CAPTURE_SIZE + 1)).2).length ≤ CAPTURE_SIZE :=
  capture_loop_deselected_spec envConst 0 (by decide)
    (fun t ht => absurd ht (Nat.not_lt_zero t))
    rfl
    (fun t _ => rfl)
